import Mathlib

/-!
# YooKassa payment script: polling loop, payment creation and status lookup

A shallow embedding of `main.go`.  Calls that leave the program (the HTTP
round trip, the clock, the JSON reader of `encoding/json`) are represented by
the value they return, so every function below is a pure function of those
values.  Go's `error` is represented by its message text, as all errors of the
program are built by `fmt.Errorf`.
-/

namespace YooKassa

/-! ## Machine integers -/

/-- Go's `int` on 64-bit targets: two's complement wrap-around of an
arithmetic result. -/
def wrapInt (x : Int) : Int :=
  (x + 9223372036854775808) % 18446744073709551616 - 9223372036854775808

/-- Largest value of Go's 64-bit `int`. -/
def maxInt : Int := 9223372036854775807

/-- Smallest value of Go's 64-bit `int`. -/
def minInt : Int := -9223372036854775808

/-! ## The scheduled job of `main` (lines 162-189) -/

/-- The limit `maxChecks := 20` on the number of checks. -/
def maxChecks : Int := 20

/-- What one run of the scheduled closure does: the new value of the captured
`checkCount`, the lines given to `log.Printf`, the text given to
`fmt.Printf`/`fmt.Println`, and how many values it sends on `done`. -/
structure TickResult where
  checkCount : Int
  logged : List String
  printed : List String
  sent : Nat
  deriving DecidableEq

/-- The closure passed to `scheduler.Every(30).Seconds().Do`.  `poll` is the
pair `(status, err)` that `checkPaymentStatus(payment.ID)` returned on this
run. -/
def checkJob (paymentID : String) (checkCount : Int) (poll : String × Option String) :
    TickResult :=
  let checkCount := wrapInt (checkCount + 1)
  match poll.2 with
  | some err =>
    { checkCount := checkCount
      logged := ["Error checking payment status: " ++ err]
      printed := []
      sent := 0 }
  | none =>
    let status := poll.1
    let line := "Payment ID: " ++ paymentID ++ ", Status: " ++ status ++ "\n"
    if status = "succeeded" ∨ status = "canceled" then
      { checkCount := checkCount
        logged := []
        printed := [line, "Final status reached: " ++ status ++ ". Stopping checks.\n"]
        sent := 1 }
    else if checkCount ≥ maxChecks then
      { checkCount := checkCount
        logged := []
        printed := [line, "10 minutes elapsed. Stopping checks.\n"]
        sent := 1 }
    else
      { checkCount := checkCount
        logged := []
        printed := [line]
        sent := 0 }

/-- State of the polling loop: the captured counter, the number of calls of
`checkPaymentStatus` made so far, whether `main` has received from `done`
(after which it stops the scheduler), and the output so far. -/
structure LoopState where
  checkCount : Int
  polls : Nat
  done : Bool
  logged : List String
  printed : List String
  deriving DecidableEq

/-- State when the scheduler is started: `checkCount := 0`, nothing polled. -/
def LoopState.init : LoopState :=
  { checkCount := 0, polls := 0, done := false, logged := [], printed := [] }

/-- One scheduler period.  While `main` still waits on `<-done` the job runs
once; a value sent on the unbuffered channel is received by `main`, which then
calls `scheduler.Stop()`, so no job runs in a state that is done. -/
def stepLoop (paymentID : String) (st : LoopState) (poll : String × Option String) :
    LoopState :=
  if st.done then st
  else
    let r := checkJob paymentID st.checkCount poll
    { checkCount := r.checkCount
      polls := st.polls + 1
      done := decide (0 < r.sent)
      logged := st.logged ++ r.logged
      printed := st.printed ++ r.printed }

/-- The loop from a given state over the results that successive calls of
`checkPaymentStatus` return, one per period. -/
def runFrom (paymentID : String) (st : LoopState) (polls : List (String × Option String)) :
    LoopState :=
  polls.foldl (stepLoop paymentID) st

/-- The loop as started by `main`. -/
def runLoop (paymentID : String) (polls : List (String × Option String)) : LoopState :=
  runFrom paymentID LoopState.init polls

/-- A status after which the job stops the loop. -/
def isTerminal (status : String) : Prop :=
  status = "succeeded" ∨ status = "canceled"

instance (status : String) : Decidable (isTerminal status) := by
  unfold isTerminal; infer_instance

/-! ## The payment record (lines 21-37) -/

/-- The anonymous struct of the field `Amount`. -/
structure Amount where
  Value : String
  Currency : String
  deriving DecidableEq

/-- The anonymous struct of the field `Confirmation` (its field `Type` is
written `Type_`). -/
structure Confirmation where
  Type_ : String
  ReturnURL : String
  ConfirmationURL : String
  deriving DecidableEq

/-- The struct `Payment`. -/
structure Payment where
  ID : String
  Status : String
  Amount : Amount
  Confirmation : Confirmation
  Description : String
  Capture : Bool
  Test : Bool
  deriving DecidableEq

/-- The zero value of `Payment`, as left by `var payment Payment`. -/
def Payment.zero : Payment :=
  { ID := "", Status := "", Amount := ⟨"", ""⟩, Confirmation := ⟨"", "", ""⟩,
    Description := "", Capture := false, Test := false }

/-! ## JSON values and their decoding into `Payment`

The character-level reading of JSON text is done by `encoding/json` and is not
part of this program: a response carries the value that the decoder reads from
its body.  How a JSON value fills a `Payment` is fixed by the field tags of the
struct together with the rules of `Unmarshal`, which are modelled here: an
object key selects the field with exactly that name, else the field whose name
equals it ignoring case; keys that select no field are skipped; `null` leaves a
field as it is; a value of another JSON type than the field is skipped and
reported as an `UnmarshalTypeError`, the first such error being the one
returned. -/

/-- A JSON value. -/
inductive Json where
  | null
  | bool (b : Bool)
  | number (literal : String)
  | string (s : String)
  | array (elems : List Json)
  | object (members : List (String × Json))

/-- The word by which `encoding/json` names the kind of a value in an
`UnmarshalTypeError`. -/
def Json.kind : Json → String
  | .null => "null"
  | .bool _ => "bool"
  | .number _ => "number"
  | .string _ => "string"
  | .array _ => "array"
  | .object _ => "object"

/-- The least rune of the case-fold set of `c`, for the fold sets that contain
an ASCII letter (the letters themselves, the Kelvin sign and the long s); any
other rune is kept, which decides every comparison against the ASCII field
names of `Payment` as `encoding/json` does. -/
def foldRune (c : Char) : Char :=
  if 'a'.toNat ≤ c.toNat ∧ c.toNat ≤ 'z'.toNat then Char.ofNat (c.toNat - 32)
  else if c.toNat = 0x212A then 'K'
  else if c.toNat = 0x17F then 'S'
  else c

/-- The key under which `encoding/json` finds a field when no field has the
exact name: the name with every rune case-folded. -/
def foldName (name : String) : List Char :=
  name.data.map foldRune

/-- Go's `d.saveError`: the first error met is the one reported. -/
def saveError (saved : Option String) (err : String) : Option String :=
  match saved with
  | none => some err
  | some e => some e

/-- Text of an `UnmarshalTypeError` for a value met at a struct field. -/
def fieldTypeError (kind structName field goType : String) : String :=
  "json: cannot unmarshal " ++ kind ++ " into Go struct field " ++ structName ++ "." ++
    field ++ " of type " ++ goType

/-- Text of an `UnmarshalTypeError` for the value decoded at top level. -/
def valueTypeError (kind goType : String) : String :=
  "json: cannot unmarshal " ++ kind ++ " into Go value of type " ++ goType

/-- Decoding into a `string` field: a JSON string is stored, `null` leaves the
field as it is, any other value is skipped and reported as a type error. -/
def storeString (structName field : String) (j : Json) (acc : String × Option String) :
    String × Option String :=
  match j with
  | .string s => (s, acc.2)
  | .null => acc
  | other => (acc.1, saveError acc.2 (fieldTypeError other.kind structName field "string"))

/-- Decoding into a `bool` field. -/
def storeBool (structName field : String) (j : Json) (acc : Bool × Option String) :
    Bool × Option String :=
  match j with
  | .bool b => (b, acc.2)
  | .null => acc
  | other => (acc.1, saveError acc.2 (fieldTypeError other.kind structName field "bool"))

/-- The field of a struct that an object key selects: the field with exactly
that name if there is one, else the first field whose name equals the key
under case folding. -/
def lookupField {φ : Type} (fields : List φ) (name : φ → String) (key : String) : Option φ :=
  match fields.find? (fun f => name f = key) with
  | some f => some f
  | none => fields.find? (fun f => foldName (name f) = foldName key)

/-- Decoding of the members of a JSON object into a struct, in order: a key
that selects no field is skipped, a later member overwrites an earlier one. -/
def decodeMembers {φ σ : Type} (fields : List φ) (name : φ → String)
    (store : φ → Json → σ × Option String → σ × Option String)
    (members : List (String × Json)) (acc : σ × Option String) : σ × Option String :=
  members.foldl
    (fun acc m =>
      match lookupField fields name m.1 with
      | some f => store f m.2 acc
      | none => acc)
    acc

/-- Fields of the struct of `Amount`. -/
inductive AmountField where
  | value | currency
  deriving DecidableEq

/-- The `json` tag of a field of `Amount`. -/
def AmountField.tag : AmountField → String
  | .value => "value"
  | .currency => "currency"

/-- All fields of `Amount`, in declaration order. -/
def AmountField.all : List AmountField := [.value, .currency]

/-- Decoding of one member into the struct of `Amount`. -/
def AmountField.store (f : AmountField) (j : Json) (acc : Amount × Option String) :
    Amount × Option String :=
  match f with
  | .value =>
    let r := storeString "Payment" "amount.value" j (acc.1.Value, acc.2)
    ({ acc.1 with Value := r.1 }, r.2)
  | .currency =>
    let r := storeString "Payment" "amount.currency" j (acc.1.Currency, acc.2)
    ({ acc.1 with Currency := r.1 }, r.2)

/-- Go's name of the type of the field `Amount`. -/
def amountType : String :=
  "struct \x7b Value string \"json:\\\"value\\\"\"; Currency string \"json:\\\"currency\\\"\" \x7d"

/-- Decoding into the field `Amount`: an object fills the struct member by
member, `null` leaves it, any other value is a type error. -/
def storeAmount (j : Json) (acc : Amount × Option String) : Amount × Option String :=
  match j with
  | .object members => decodeMembers AmountField.all AmountField.tag AmountField.store members acc
  | .null => acc
  | other => (acc.1, saveError acc.2 (fieldTypeError other.kind "Payment" "amount" amountType))

/-- Fields of the struct of `Confirmation`. -/
inductive ConfirmationField where
  | type | returnURL | confirmationURL
  deriving DecidableEq

/-- The `json` tag of a field of `Confirmation`. -/
def ConfirmationField.tag : ConfirmationField → String
  | .type => "type"
  | .returnURL => "return_url"
  | .confirmationURL => "confirmation_url"

/-- All fields of `Confirmation`, in declaration order. -/
def ConfirmationField.all : List ConfirmationField := [.type, .returnURL, .confirmationURL]

/-- Decoding of one member into the struct of `Confirmation`. -/
def ConfirmationField.store (f : ConfirmationField) (j : Json)
    (acc : Confirmation × Option String) : Confirmation × Option String :=
  match f with
  | .type =>
    let r := storeString "Payment" "confirmation.type" j (acc.1.Type_, acc.2)
    ({ acc.1 with Type_ := r.1 }, r.2)
  | .returnURL =>
    let r := storeString "Payment" "confirmation.return_url" j (acc.1.ReturnURL, acc.2)
    ({ acc.1 with ReturnURL := r.1 }, r.2)
  | .confirmationURL =>
    let r := storeString "Payment" "confirmation.confirmation_url" j (acc.1.ConfirmationURL, acc.2)
    ({ acc.1 with ConfirmationURL := r.1 }, r.2)

/-- Go's name of the type of the field `Confirmation`. -/
def confirmationType : String :=
  "struct \x7b Type string \"json:\\\"type\\\"\"; ReturnURL string \"json:\\\"return_url\\\"\"; " ++
    "ConfirmationURL string \"json:\\\"confirmation_url\\\"\" \x7d"

/-- Decoding into the field `Confirmation`. -/
def storeConfirmation (j : Json) (acc : Confirmation × Option String) :
    Confirmation × Option String :=
  match j with
  | .object members =>
    decodeMembers ConfirmationField.all ConfirmationField.tag ConfirmationField.store members acc
  | .null => acc
  | other =>
    (acc.1, saveError acc.2 (fieldTypeError other.kind "Payment" "confirmation" confirmationType))

/-- Fields of `Payment`. -/
inductive PaymentField where
  | id | status | amount | confirmation | description | capture | test
  deriving DecidableEq

/-- The `json` tag of a field of `Payment`. -/
def PaymentField.tag : PaymentField → String
  | .id => "id"
  | .status => "status"
  | .amount => "amount"
  | .confirmation => "confirmation"
  | .description => "description"
  | .capture => "capture"
  | .test => "test"

/-- All fields of `Payment`, in declaration order. -/
def PaymentField.all : List PaymentField :=
  [.id, .status, .amount, .confirmation, .description, .capture, .test]

/-- Decoding of one member into `Payment`. -/
def PaymentField.store (f : PaymentField) (j : Json) (acc : Payment × Option String) :
    Payment × Option String :=
  match f with
  | .id =>
    let r := storeString "Payment" "id" j (acc.1.ID, acc.2)
    ({ acc.1 with ID := r.1 }, r.2)
  | .status =>
    let r := storeString "Payment" "status" j (acc.1.Status, acc.2)
    ({ acc.1 with Status := r.1 }, r.2)
  | .amount =>
    let r := storeAmount j (acc.1.Amount, acc.2)
    ({ acc.1 with Amount := r.1 }, r.2)
  | .confirmation =>
    let r := storeConfirmation j (acc.1.Confirmation, acc.2)
    ({ acc.1 with Confirmation := r.1 }, r.2)
  | .description =>
    let r := storeString "Payment" "description" j (acc.1.Description, acc.2)
    ({ acc.1 with Description := r.1 }, r.2)
  | .capture =>
    let r := storeBool "Payment" "capture" j (acc.1.Capture, acc.2)
    ({ acc.1 with Capture := r.1 }, r.2)
  | .test =>
    let r := storeBool "Payment" "test" j (acc.1.Test, acc.2)
    ({ acc.1 with Test := r.1 }, r.2)

/-- Decoding of a JSON value into `payment`, as `Unmarshal` does for a pointer
to a struct: the new content of `payment` and the error returned, if any. -/
def unmarshalPayment (j : Json) (payment : Payment) : Payment × Option String :=
  match j with
  | .object members =>
    decodeMembers PaymentField.all PaymentField.tag PaymentField.store members (payment, none)
  | .null => (payment, none)
  | other => (payment, some (valueTypeError other.kind "main.Payment"))

/-! ## HTTP exchange -/

/-- The constant `shopID`. -/
def shopID : String := ""

/-- The constant `secretKey`. -/
def secretKey : String := ""

/-- The constant `apiURL`. -/
def apiURL : String := "https://api.yookassa.ru/v3/payments"

/-- The constant `http.StatusOK`. -/
def StatusOK : Int := 200

/-- The parts of an `http.Request` that the program sets. -/
structure Request where
  Method : String
  URL : String
  BasicAuth : String × String
  Header : List (String × String)
  Body : Option String
  deriving DecidableEq

/-- The parts of an `http.Response` that the program reads: the status code,
the body text as `io.ReadAll(resp.Body)` yields it, and what
`json.NewDecoder(resp.Body)` reads from that body: its first JSON value, or the
reader's error. -/
structure Response where
  StatusCode : Int
  Body : String
  Value : Except String Json

/-- The call `json.NewDecoder(resp.Body).Decode(&payment)` on a zero `payment`:
the content of `payment` afterwards and the error returned, if any. -/
def decodeBody (resp : Response) : Payment × Option String :=
  match resp.Value with
  | .error err => (Payment.zero, some err)
  | .ok j => unmarshalPayment j Payment.zero

/-- The idempotency key computed from the clock reading
`time.Now().UnixNano()`. -/
def idempotencyKey (now : Int) : String :=
  "test-idempotency-" ++ toString now

/-- What the calls made by `createPayment` return: `json.Marshal(payload)`
(the body text or an error), the error of `http.NewRequest` if any, the clock
reading, and the result of `client.Do(req)` for the request it is given. -/
structure CreateCalls where
  marshal : Except String String
  newRequest : Option String
  now : Int
  send : Request → Except String Response

/-- The request that `createPayment` builds. -/
def createRequest (body : String) (now : Int) : Request :=
  { Method := "POST"
    URL := apiURL
    BasicAuth := (shopID, secretKey)
    Header := [("Content-Type", "application/json"), ("Idempotence-Key", idempotencyKey now)]
    Body := some body }

/-- The request passed to `client.Do` by `createPayment`, if it gets there. -/
def createPaymentSent (calls : CreateCalls) : Option Request :=
  match calls.marshal with
  | .error _ => none
  | .ok body =>
    match calls.newRequest with
    | some _ => none
    | none => some (createRequest body calls.now)

/-- The function `createPayment`: the pair `(*Payment, error)` it returns
(logging is left out). -/
def createPayment (calls : CreateCalls) : Option Payment × Option String :=
  match calls.marshal with
  | .error err => (none, some ("failed to marshal payload: " ++ err))
  | .ok body =>
    match calls.newRequest with
    | some err => (none, some ("failed to create request: " ++ err))
    | none =>
      match calls.send (createRequest body calls.now) with
      | .error err => (none, some ("failed to send request: " ++ err))
      | .ok resp =>
        if resp.StatusCode ≠ StatusOK then
          (none, some ("unexpected status code: " ++ toString resp.StatusCode ++
            ", response: " ++ resp.Body))
        else
          match decodeBody resp with
          | (_, some err) => (none, some ("failed to decode response: " ++ err))
          | (payment, none) => (some payment, none)

/-- What the calls made by `checkPaymentStatus` return: the error of
`http.NewRequest` if any, and the result of `client.Do(req)` for the request it
is given. -/
structure StatusCalls where
  newRequest : Option String
  send : Request → Except String Response

/-- The request that `checkPaymentStatus` builds. -/
def statusRequest (paymentID : String) : Request :=
  { Method := "GET"
    URL := apiURL ++ "/" ++ paymentID
    BasicAuth := (shopID, secretKey)
    Header := [("Content-Type", "application/json")]
    Body := none }

/-- The function `checkPaymentStatus`: the pair `(string, error)` it returns. -/
def checkPaymentStatus (paymentID : String) (calls : StatusCalls) : String × Option String :=
  match calls.newRequest with
  | some err => ("", some ("failed to create request: " ++ err))
  | none =>
    match calls.send (statusRequest paymentID) with
    | .error err => ("", some ("failed to send request: " ++ err))
    | .ok resp =>
      if resp.StatusCode ≠ StatusOK then
        ("", some ("unexpected status code: " ++ toString resp.StatusCode ++
          ", response: " ++ resp.Body))
      else
        match decodeBody resp with
        | (_, some err) => ("", some ("failed to decode response: " ++ err))
        | (payment, none) => (payment.Status, none)

/-- The polling loop of `main` over the calls made in successive periods. -/
def pollLoop (paymentID : String) (calls : List StatusCalls) : LoopState :=
  runLoop paymentID (calls.map (checkPaymentStatus paymentID))

/-! ## Shapes of JSON values used in the statements on decoding -/

/-- A value that cannot be stored in a `string` field: anything but a string
or `null`. -/
def stringConflict : Json → Bool
  | .string _ => false
  | .null => false
  | _ => true

/-- A value that cannot be stored in a `bool` field. -/
def boolConflict : Json → Bool
  | .bool _ => false
  | .null => false
  | _ => true

/-- Some member of an object selects a field and carries a value that cannot
be stored in it. -/
def membersConflict {φ : Type} (fields : List φ) (name : φ → String)
    (conflict : φ → Json → Bool) (members : List (String × Json)) : Bool :=
  members.any
    (fun m =>
      match lookupField fields name m.1 with
      | some f => conflict f m.2
      | none => false)

/-- A value that cannot be stored in the field `Amount`. -/
def amountConflict : Json → Bool
  | .object members =>
    membersConflict AmountField.all AmountField.tag (fun _ v => stringConflict v) members
  | .null => false
  | _ => true

/-- A value that cannot be stored in the field `Confirmation`. -/
def confirmationConflict : Json → Bool
  | .object members =>
    membersConflict ConfirmationField.all ConfirmationField.tag (fun _ v => stringConflict v)
      members
  | .null => false
  | _ => true

/-- A value that cannot be stored in the given field of `Payment`. -/
def PaymentField.conflict : PaymentField → Json → Bool
  | .id, v => stringConflict v
  | .status, v => stringConflict v
  | .amount, v => amountConflict v
  | .confirmation, v => confirmationConflict v
  | .description, v => stringConflict v
  | .capture, v => boolConflict v
  | .test, v => boolConflict v

/-- The JSON value conflicts with the shape of `Payment`: it is neither an
object nor `null`, or it is an object in which a member that selects a field of
`Payment` (or, inside `amount` and `confirmation`, of the nested struct)
carries a value of another JSON type than the field. -/
def conflictsWithPayment : Json → Bool
  | .object members =>
    membersConflict PaymentField.all PaymentField.tag PaymentField.conflict members
  | .null => false
  | _ => true

/-- The member names of an object are pairwise different, also when letter
case is ignored. -/
def distinctNames (members : List (String × Json)) : Prop :=
  (members.map (fun m => foldName m.1)).Nodup

instance (members : List (String × Json)) : Decidable (distinctNames members) := by
  unfold distinctNames; infer_instance

/-- The members form a valid payment object whose fields have the values of
`p`: names are distinct, and `id`, `status`, `amount` (`value`, `currency`),
`confirmation` (`type`, `return_url`, `confirmation_url`), `description`,
`capture` and `test` are present with values of their JSON types.  Further
members may be present. -/
def isPaymentObject (members : List (String × Json)) (p : Payment) : Prop :=
  distinctNames members ∧
  ("id", Json.string p.ID) ∈ members ∧
  ("status", Json.string p.Status) ∈ members ∧
  (∃ am, ("amount", Json.object am) ∈ members ∧ distinctNames am ∧
    ("value", Json.string p.Amount.Value) ∈ am ∧
    ("currency", Json.string p.Amount.Currency) ∈ am) ∧
  (∃ cm, ("confirmation", Json.object cm) ∈ members ∧ distinctNames cm ∧
    ("type", Json.string p.Confirmation.Type_) ∈ cm ∧
    ("return_url", Json.string p.Confirmation.ReturnURL) ∈ cm ∧
    ("confirmation_url", Json.string p.Confirmation.ConfirmationURL) ∈ cm) ∧
  ("description", Json.string p.Description) ∈ members ∧
  ("capture", Json.bool p.Capture) ∈ members ∧
  ("test", Json.bool p.Test) ∈ members

/-- The members of a payment object as the service returns it, with a member
`paid` that `Payment` has no field for. -/
def sampleMembers : List (String × Json) :=
  [("id", .string "2f1c-0001"),
   ("status", .string "pending"),
   ("paid", .bool false),
   ("amount", .object [("value", .string "10.00"), ("currency", .string "RUB")]),
   ("confirmation", .object
     [("type", .string "redirect"),
      ("return_url", .string "https://your-website.com/return"),
      ("confirmation_url", .string "https://yoomoney.ru/checkout/payments/v2/contract?orderId=2f1c-0001")]),
   ("description", .string "Test payment"),
   ("capture", .bool true),
   ("test", .bool true)]

/-- The payment with the field values of `sampleMembers`. -/
def samplePayment : Payment :=
  { ID := "2f1c-0001"
    Status := "pending"
    Amount := { Value := "10.00", Currency := "RUB" }
    Confirmation :=
      { Type_ := "redirect"
        ReturnURL := "https://your-website.com/return"
        ConfirmationURL := "https://yoomoney.ru/checkout/payments/v2/contract?orderId=2f1c-0001" }
    Description := "Test payment"
    Capture := true
    Test := true }

/-- The response with status code 200 that carries `sampleMembers`. -/
def sampleResponse : Response :=
  { StatusCode := 200
    Body := "(payment object)"
    Value := .ok (.object sampleMembers) }

/-- A call of `createPayment` answered with `sampleResponse`. -/
def sampleCall : CreateCalls :=
  { marshal := .ok "\x7b\x7d"
    newRequest := none
    now := 1730000000000000000
    send := fun _ => .ok sampleResponse }

/-- A call of `createPayment` answered with HTTP 200 and the body `{}`. -/
def emptyObjectCall : CreateCalls :=
  { marshal := .ok "\x7b\x7d"
    newRequest := none
    now := 1730000000000000000
    send := fun _ => .ok { StatusCode := 200, Body := "\x7b\x7d", Value := .ok (.object []) } }

/-- A call of `createPayment` answered with HTTP 200 and a JSON object of
another shape, `{"error":"not found","code":404}`. -/
def otherShapeCall : CreateCalls :=
  { marshal := .ok "\x7b\x7d"
    newRequest := none
    now := 1730000000000000000
    send := fun _ => .ok
      { StatusCode := 200
        Body := "\x7b\"error\":\"not found\",\"code\":404\x7d"
        Value := .ok (.object [("error", .string "not found"), ("code", .number "404")]) } }

/-- The two payments hold the same value in the given field of `Payment`. -/
def PaymentField.sameIn (f : PaymentField) (p q : Payment) : Prop :=
  match f with
  | .id => p.ID = q.ID
  | .status => p.Status = q.Status
  | .amount => p.Amount = q.Amount
  | .confirmation => p.Confirmation = q.Confirmation
  | .description => p.Description = q.Description
  | .capture => p.Capture = q.Capture
  | .test => p.Test = q.Test

/-- A call of `createPayment` answered with HTTP 200 and the body `null`. -/
def nullCall : CreateCalls :=
  { marshal := .ok "\x7b\x7d"
    newRequest := none
    now := 1730000000000000000
    send := fun _ => .ok { StatusCode := 200, Body := "null", Value := .ok .null } }

/-- A call of `createPayment` answered with HTTP 200 and the body
`{"id":"x","status":null}`. -/
def idOnlyCall : CreateCalls :=
  { marshal := .ok "\x7b\x7d"
    newRequest := none
    now := 1730000000000000000
    send := fun _ => .ok
      { StatusCode := 200
        Body := "\x7b\"id\":\"x\",\"status\":null\x7d"
        Value := .ok (.object [("id", .string "x"), ("status", .null)]) } }

/-- A call of `createPayment` answered with HTTP 200 and a body that breaks
off inside a JSON object. -/
def malformedCall : CreateCalls :=
  { marshal := .ok "\x7b\x7d"
    newRequest := none
    now := 1730000000000000000
    send := fun _ => .ok
      { StatusCode := 200
        Body := "\x7b\"id\":"
        Value := .error "unexpected EOF" } }

/-- The method `Header.Get` for a key in canonical form: the first value stored under the
key, "" when there is none. -/
def headerGet (header : List (String × String)) (key : String) : String :=
  (header.lookup key).getD ""

/-- The `Idempotence-Key` header of the request that `createPayment` sends, if
it sends one. -/
def sentIdempotenceKey (calls : CreateCalls) : Option String :=
  (createPaymentSent calls).map (fun req => headerGet req.Header "Idempotence-Key")

/-- A call of `createPayment` that reads the clock at 1730000000000000000 ns
and is answered with HTTP 500. -/
def firstCall : CreateCalls :=
  { marshal := .ok "\x7b\x7d"
    newRequest := none
    now := 1730000000000000000
    send := fun _ => .ok { StatusCode := 500, Body := "internal error", Value := .error "EOF" } }

/-- A later, separate call of `createPayment` for which the clock still reads
1730000000000000000 ns, answered with HTTP 503. -/
def secondCall : CreateCalls :=
  { marshal := .ok "\x7b\x7d"
    newRequest := none
    now := 1730000000000000000
    send := fun _ => .ok { StatusCode := 503, Body := "unavailable", Value := .error "EOF" } }

/-- A status lookup answered with HTTP 200 and a payment whose status is
"pending". -/
def pendingCalls : StatusCalls :=
  { newRequest := none
    send := fun _ => .ok
      { StatusCode := 200
        Body := "\x7b\"id\":\"p1\",\"status\":\"pending\"\x7d"
        Value := .ok (.object [("id", .string "p1"), ("status", .string "pending")]) } }

/-- A status lookup whose `client.Do` fails. -/
def failedCalls : StatusCalls :=
  { newRequest := none
    send := fun _ => .error "Get \"https://api.yookassa.ru/v3/payments/p1\": dial tcp: i/o timeout" }

/-- An error is a response error when its message is the one built for a
status code other than 200. -/
def isResponseError (msg : String) : Prop :=
  "unexpected status code: ".data <+: msg.data

/-- An error is a decode error when its message is the one built for a failed
`Decode`. -/
def isDecodeError (msg : String) : Prop :=
  "failed to decode response: ".data <+: msg.data



/-! ## Lemmas on the polling loop -/

theorem wrapInt_of_range {x : Int} (h1 : minInt ≤ x) (h2 : x ≤ maxInt) : wrapInt x = x := by
  unfold wrapInt
  unfold minInt at h1
  unfold maxInt at h2
  omega

theorem checkJob_checkCount (paymentID : String) (c : Int) (poll : String × Option String) :
    (checkJob paymentID c poll).checkCount = wrapInt (c + 1) := by
  obtain ⟨s, _ | e⟩ := poll
  · simp only [checkJob]
    split_ifs <;> rfl
  · rfl

theorem checkJob_sent_error (paymentID : String) (c : Int) (s e : String) :
    (checkJob paymentID c (s, some e)).sent = 0 := rfl

theorem checkJob_sent_ok (paymentID : String) (c : Int) (s : String) :
    (checkJob paymentID c (s, none)).sent =
      if isTerminal s ∨ wrapInt (c + 1) ≥ maxChecks then 1 else 0 := by
  simp only [checkJob, isTerminal]
  split_ifs <;> first | rfl | (exfalso; simp_all; try omega)

theorem stepLoop_of_done (paymentID : String) (st : LoopState) (poll : String × Option String)
    (h : st.done = true) : stepLoop paymentID st poll = st := by
  simp [stepLoop, h]

theorem runFrom_of_done (paymentID : String) (polls : List (String × Option String))
    (st : LoopState) (h : st.done = true) : runFrom paymentID st polls = st := by
  induction polls with
  | nil => rfl
  | cons p ps ih =>
    simp only [runFrom, List.foldl_cons, stepLoop_of_done paymentID st p h]
    exact ih

theorem runFrom_cons (paymentID : String) (st : LoopState) (p : String × Option String)
    (ps : List (String × Option String)) :
    runFrom paymentID st (p :: ps) = runFrom paymentID (stepLoop paymentID st p) ps := rfl

theorem runFrom_append (paymentID : String) (st : LoopState)
    (ps qs : List (String × Option String)) :
    runFrom paymentID st (ps ++ qs) = runFrom paymentID (runFrom paymentID st ps) qs := by
  simp [runFrom, List.foldl_append]

/-- A period whose poll succeeds with a status that is not terminal, below the
limit: the loop goes on, one more poll made. -/
theorem stepLoop_pending (paymentID : String) (st : LoopState) (s : String)
    (hd : st.done = false) (hs : ¬ isTerminal s) (h0 : 0 ≤ st.checkCount)
    (h1 : st.checkCount + 1 < maxChecks) :
    (stepLoop paymentID st (s, none)).done = false ∧
    (stepLoop paymentID st (s, none)).checkCount = st.checkCount + 1 ∧
    (stepLoop paymentID st (s, none)).polls = st.polls + 1 := by
  have hw : wrapInt (st.checkCount + 1) = st.checkCount + 1 := by
    apply wrapInt_of_range <;> (unfold maxChecks at h1; simp only [minInt, maxInt]; omega)
  simp only [stepLoop, hd, Bool.false_eq_true, if_false, checkJob_checkCount, checkJob_sent_ok, hw]
  refine ⟨?_, trivial, trivial⟩
  have : ¬ (isTerminal s ∨ st.checkCount + 1 ≥ maxChecks) := by
    rintro (h | h)
    · exact hs h
    · omega
  simp [this]

/-- Polls that all succeed with a status that is not terminal, fewer than the
limit allows: the loop is still running and has polled once per period. -/
theorem runFrom_pending (paymentID : String) (polls : List (String × Option String)) :
    ∀ st : LoopState, st.done = false → 0 ≤ st.checkCount →
      st.checkCount + polls.length < maxChecks →
      (∀ p ∈ polls, p.2 = none ∧ ¬ isTerminal p.1) →
      (runFrom paymentID st polls).done = false ∧
      (runFrom paymentID st polls).checkCount = st.checkCount + polls.length ∧
      (runFrom paymentID st polls).polls = st.polls + polls.length := by
  induction polls with
  | nil => intro st hd _ _ _; simp [runFrom, hd]
  | cons p ps ih =>
    intro st hd h0 hlen hall
    obtain ⟨s, e⟩ := p
    have hp := hall (s, e) (List.mem_cons_self _ _)
    simp only at hp
    obtain ⟨he, hs⟩ := hp
    subst he
    simp only [List.length_cons, Nat.cast_add, Nat.cast_one] at hlen
    obtain ⟨a, b, c⟩ := stepLoop_pending paymentID st s hd hs h0 (by omega)
    have := ih (stepLoop paymentID st (s, none)) a (by omega) (by omega)
      (fun q hq => hall q (List.mem_cons_of_mem _ hq))
    rw [runFrom_cons]
    obtain ⟨t1, t2, t3⟩ := this
    refine ⟨t1, ?_, ?_⟩
    · rw [t2, b]; simp only [List.length_cons, Nat.cast_add, Nat.cast_one]; omega
    · rw [t3, c]; simp only [List.length_cons]; omega

/-- A period in which the poll fails: nothing is sent, the loop goes on. -/
theorem stepLoop_error (paymentID : String) (st : LoopState) (s e : String)
    (hd : st.done = false) :
    (stepLoop paymentID st (s, some e)).done = false ∧
    (stepLoop paymentID st (s, some e)).polls = st.polls + 1 ∧
    (stepLoop paymentID st (s, some e)).checkCount = wrapInt (st.checkCount + 1) := by
  simp [stepLoop, hd, checkJob]

/-- A period in a running loop always polls once. -/
theorem stepLoop_polls (paymentID : String) (st : LoopState) (poll : String × Option String)
    (hd : st.done = false) : (stepLoop paymentID st poll).polls = st.polls + 1 := by
  simp [stepLoop, hd]

/-- The state after a period in a running loop, in terms of the job. -/
theorem stepLoop_done_iff (paymentID : String) (st : LoopState) (poll : String × Option String)
    (hd : st.done = false) :
    (stepLoop paymentID st poll).done = true ↔
      0 < (checkJob paymentID st.checkCount poll).sent := by
  simp [stepLoop, hd]

/-- A period whose poll succeeds with a terminal status, or with the counter
at the limit: the loop is done after it. -/
theorem stepLoop_stop (paymentID : String) (st : LoopState) (s : String)
    (hd : st.done = false) (h : isTerminal s ∨ wrapInt (st.checkCount + 1) ≥ maxChecks) :
    (stepLoop paymentID st (s, none)).done = true ∧
    (stepLoop paymentID st (s, none)).polls = st.polls + 1 := by
  refine ⟨?_, stepLoop_polls paymentID st _ hd⟩
  rw [stepLoop_done_iff paymentID st _ hd, checkJob_sent_ok]
  simp [h]

/-! ## The claims on the polling loop -/

/-- C1: on a period whose poll succeeds with status `s`, with `c` the counter
after the increment of that period, the job sends the completion signal if and
only if `s` is "succeeded" or "canceled" or `c >= 20`; otherwise it sends
nothing, and a running loop is done after the period exactly in that case. -/
theorem C1_tick_decision (paymentID : String) (c : Int) (s : String) :
    ((checkJob paymentID c (s, none)).sent = 1 ↔
      (s = "succeeded" ∨ s = "canceled" ∨ (checkJob paymentID c (s, none)).checkCount ≥ 20)) ∧
    (¬ (s = "succeeded" ∨ s = "canceled" ∨ (checkJob paymentID c (s, none)).checkCount ≥ 20) →
      (checkJob paymentID c (s, none)).sent = 0) ∧
    (∀ st : LoopState, st.done = false → st.checkCount = c →
      ((stepLoop paymentID st (s, none)).done = true ↔
        (s = "succeeded" ∨ s = "canceled" ∨
          (stepLoop paymentID st (s, none)).checkCount ≥ 20))) := by
  have key : (checkJob paymentID c (s, none)).sent =
      if (s = "succeeded" ∨ s = "canceled" ∨ wrapInt (c + 1) ≥ 20) then 1 else 0 := by
    rw [checkJob_sent_ok]
    simp only [isTerminal, maxChecks, or_assoc]
  refine ⟨?_, ?_, ?_⟩
  · rw [key, checkJob_checkCount]
    split_ifs with h <;> simp [h]
  · rw [key, checkJob_checkCount]
    intro h
    simp [h]
  · intro st hd hc
    subst hc
    rw [stepLoop_done_iff paymentID st (s, none) hd, key]
    have : (stepLoop paymentID st (s, none)).checkCount = wrapInt (st.checkCount + 1) := by
      simp [stepLoop, hd, checkJob_checkCount]
    rw [this]
    split_ifs with h <;> simp [h]

/-- Witness of C1: a running loop with counter 19 that polls "pending" is done
after the period, the counter having reached 20. -/
theorem C1_tick_decision_witness :
    (stepLoop "p1" ⟨19, 19, false, [], []⟩ ("pending", none)).done = true ↔
      ("pending" = "succeeded" ∨ "pending" = "canceled" ∨
        (stepLoop "p1" ⟨19, 19, false, [], []⟩ ("pending", none)).checkCount ≥ 20) :=
  (C1_tick_decision "p1" 19 "pending").2.2 ⟨19, 19, false, [], []⟩ rfl rfl

/-- C3: when every poll succeeds with a status that is not terminal, the loop
is still running, with one poll per period, after each of the periods 1 to 19,
and from the 20th period on it is done with exactly 20 polls, however many
periods follow. -/
theorem C3_all_pending_twenty_polls (paymentID : String)
    (polls : List (String × Option String))
    (hall : ∀ p ∈ polls, p.2 = none ∧ ¬ isTerminal p.1) :
    (∀ n, n < 20 → n ≤ polls.length →
      (runLoop paymentID (polls.take n)).done = false ∧
      (runLoop paymentID (polls.take n)).polls = n) ∧
    (20 ≤ polls.length →
      (runLoop paymentID (polls.take 20)).done = true ∧
      (runLoop paymentID (polls.take 20)).polls = 20 ∧
      (runLoop paymentID polls).done = true ∧
      (runLoop paymentID polls).polls = 20) := by
  have hc0 : LoopState.init.checkCount = 0 := rfl
  have hp0 : LoopState.init.polls = 0 := rfl
  have hpre : ∀ n, n < 20 → n ≤ polls.length →
      (runFrom paymentID LoopState.init (polls.take n)).done = false ∧
      (runFrom paymentID LoopState.init (polls.take n)).checkCount = n ∧
      (runFrom paymentID LoopState.init (polls.take n)).polls = n := by
    intro n hn hle
    have hl : (polls.take n).length = n := by
      rw [List.length_take]; omega
    have h := runFrom_pending paymentID (polls.take n) LoopState.init rfl
      (by simp [LoopState.init]) (by simp only [LoopState.init, maxChecks, hl]; omega)
      (fun p hp => hall p (List.mem_of_mem_take hp))
    rw [hc0, hp0, hl] at h
    simpa using h
  constructor
  · intro n hn hle
    exact ⟨(hpre n hn hle).1, (hpre n hn hle).2.2⟩
  · intro hlen
    obtain ⟨d19, c19, p19⟩ := hpre 19 (by decide) (by omega)
    obtain ⟨p, rest, hdrop⟩ : ∃ p rest, polls.drop 19 = p :: rest := by
      cases hq : polls.drop 19 with
      | nil =>
        have := congrArg List.length hq
        simp only [List.length_drop, List.length_nil] at this
        omega
      | cons p rest => exact ⟨p, rest, rfl⟩
    have hsplit : polls = polls.take 19 ++ p :: rest := by
      rw [← hdrop, List.take_append_drop]
    have hp := hall p (by rw [hsplit]; simp)
    obtain ⟨s, e⟩ := p
    simp only at hp
    obtain ⟨he, hs⟩ := hp
    subst he
    have hw : wrapInt ((runFrom paymentID LoopState.init (polls.take 19)).checkCount + 1)
        ≥ maxChecks := by
      rw [c19]; decide
    obtain ⟨d20, p20⟩ := stepLoop_stop paymentID _ s d19 (Or.inr hw)
    have hl19 : (polls.take 19).length = 19 := by
      rw [List.length_take]; omega
    have h20 : polls.take 20 = polls.take 19 ++ [(s, none)] := by
      conv_lhs => rw [hsplit]
      rw [List.take_append_eq_append_take, hl19]
      simp [List.take_of_length_le (le_of_eq hl19)]
    refine ⟨?_, ?_, ?_, ?_⟩
    · rw [h20, runLoop, runFrom_append, runFrom_cons]
      exact d20
    · rw [h20, runLoop, runFrom_append, runFrom_cons]
      show (stepLoop paymentID _ (s, none)).polls = 20
      rw [p20, p19]
    · rw [hsplit, runLoop, runFrom_append, runFrom_cons, runFrom_of_done _ _ _ d20]
      exact d20
    · rw [hsplit, runLoop, runFrom_append, runFrom_cons, runFrom_of_done _ _ _ d20, p20, p19]

/-- Witness of C3: twenty-five polls of "pending". -/
theorem C3_all_pending_twenty_polls_witness :
    (runLoop "p1" (List.replicate 25 ("pending", none))).done = true ∧
    (runLoop "p1" (List.replicate 25 ("pending", none))).polls = 20 := by
  have h := (C3_all_pending_twenty_polls "p1" (List.replicate 25 ("pending", none))
    (by
      intro p hp
      rw [List.eq_of_mem_replicate hp]
      exact ⟨rfl, by decide⟩)).2 (by decide)
  exact ⟨h.2.2.1, h.2.2.2⟩

/-- C4: when the polls of periods 1 to k-1 succeed with statuses that are not
terminal and the poll of period k (1 <= k <= 20) succeeds with a terminal
status, the loop is done with exactly k polls, whatever follows, and is not
done after any smaller number of periods. -/
theorem C4_terminal_at_tick_k (paymentID : String) (k : Nat)
    (pre : List (String × Option String)) (s : String) (rest : List (String × Option String))
    (hk1 : 1 ≤ k) (hk : k ≤ 20) (hlen : pre.length + 1 = k)
    (hpre : ∀ p ∈ pre, p.2 = none ∧ ¬ isTerminal p.1) (hs : isTerminal s) :
    (runLoop paymentID (pre ++ (s, none) :: rest)).done = true ∧
    (runLoop paymentID (pre ++ (s, none) :: rest)).polls = k ∧
    (∀ n, n < k →
      (runLoop paymentID ((pre ++ (s, none) :: rest).take n)).done = false ∧
      (runLoop paymentID ((pre ++ (s, none) :: rest).take n)).polls = n) := by
  have hc0 : LoopState.init.checkCount = 0 := rfl
  have hp0 : LoopState.init.polls = 0 := rfl
  have hrun := runFrom_pending paymentID pre LoopState.init rfl (by simp [LoopState.init])
    (by simp only [LoopState.init, maxChecks]; omega) hpre
  obtain ⟨d, _, p⟩ := hrun
  rw [hp0, Nat.zero_add] at p
  obtain ⟨dk, pk⟩ := stepLoop_stop paymentID _ s d (Or.inl hs)
  refine ⟨?_, ?_, ?_⟩
  · rw [runLoop, runFrom_append, runFrom_cons, runFrom_of_done _ _ _ dk]
    exact dk
  · rw [runLoop, runFrom_append, runFrom_cons, runFrom_of_done _ _ _ dk, pk, p]
    exact hlen
  · intro n hn
    have hle : n ≤ pre.length := by omega
    have htake : (pre ++ (s, none) :: rest).take n = pre.take n := by
      rw [List.take_append_of_le_length hle]
    rw [htake]
    have hl : (pre.take n).length = n := by
      rw [List.length_take]; omega
    have h := runFrom_pending paymentID (pre.take n) LoopState.init rfl
      (by simp [LoopState.init]) (by simp only [LoopState.init, maxChecks, hl]; omega)
      (fun q hq => hpre q (List.mem_of_mem_take hq))
    rw [hp0, Nat.zero_add, hl] at h
    exact ⟨h.1, h.2.2⟩

/-- Witness of C4: "pending" in periods 1 to 3 and "succeeded" in period 4
gives exactly 4 polls. -/
theorem C4_terminal_at_tick_k_witness :
    (runLoop "p1" ([("pending", none), ("pending", none), ("pending", none)] ++
      ("succeeded", none) :: [("pending", none)])).done = true ∧
    (runLoop "p1" ([("pending", none), ("pending", none), ("pending", none)] ++
      ("succeeded", none) :: [("pending", none)])).polls = 4 := by
  have h := C4_terminal_at_tick_k "p1" 4
    [("pending", none), ("pending", none), ("pending", none)] "succeeded" [("pending", none)]
    (by decide) (by decide) rfl
    (by
      intro p hp
      simp only [List.mem_cons, List.mem_singleton, List.not_mem_nil, or_false, or_self] at hp
      subst hp
      exact ⟨rfl, by decide⟩)
    (by decide)
  exact ⟨h.1, h.2.1⟩

/-- C5: in a running loop, whatever the counter, a period whose poll returns
an error sends nothing on `done`, leaves the loop running, and the next period
polls again. -/
theorem C5_poll_failure_not_fatal (paymentID : String) (st : LoopState) (s e : String)
    (next : String × Option String) (hd : st.done = false) :
    (checkJob paymentID st.checkCount (s, some e)).sent = 0 ∧
    (stepLoop paymentID st (s, some e)).done = false ∧
    (stepLoop paymentID st (s, some e)).polls = st.polls + 1 ∧
    (stepLoop paymentID (stepLoop paymentID st (s, some e)) next).polls = st.polls + 2 := by
  obtain ⟨d, p, _⟩ := stepLoop_error paymentID st s e hd
  refine ⟨rfl, d, p, ?_⟩
  rw [stepLoop_polls paymentID _ next d, p]

/-- Witness of C5: a failed poll with the counter already at 25. -/
theorem C5_poll_failure_not_fatal_witness :
    (checkJob "p1" 25 ("", some "failed to send request: timeout")).sent = 0 ∧
    (stepLoop "p1" ⟨25, 25, false, [], []⟩ ("", some "failed to send request: timeout")).done
      = false ∧
    (stepLoop "p1" ⟨25, 25, false, [], []⟩ ("", some "failed to send request: timeout")).polls
      = 25 + 1 ∧
    (stepLoop "p1"
      (stepLoop "p1" ⟨25, 25, false, [], []⟩ ("", some "failed to send request: timeout"))
      ("pending", none)).polls = 25 + 2 :=
  C5_poll_failure_not_fatal "p1" ⟨25, 25, false, [], []⟩ "" "failed to send request: timeout"
    ("pending", none) rfl

/-- In a run from a state whose counter equals its number of polls, the two
stay equal as long as the number of periods fits Go's `int`. -/
theorem runFrom_count_eq_polls (paymentID : String) (polls : List (String × Option String)) :
    ∀ st : LoopState, st.checkCount = st.polls → (st.polls + polls.length : Int) ≤ maxInt →
      (runFrom paymentID st polls).checkCount = (runFrom paymentID st polls).polls ∧
      (runFrom paymentID st polls).polls ≤ st.polls + polls.length := by
  induction polls with
  | nil => intro st h _; exact ⟨h, by simp [runFrom]⟩
  | cons p ps ih =>
    intro st h hlen
    simp only [List.length_cons, Nat.cast_add, Nat.cast_one] at hlen
    rw [runFrom_cons]
    by_cases hd : st.done = true
    · rw [stepLoop_of_done paymentID st p hd, runFrom_of_done paymentID ps st hd]
      exact ⟨h, by simp⟩
    · have hd2 : st.done = false := by simpa using hd
      have hc : (stepLoop paymentID st p).checkCount = st.checkCount + 1 := by
        have : (stepLoop paymentID st p).checkCount = wrapInt (st.checkCount + 1) := by
          simp [stepLoop, hd2, checkJob_checkCount]
        rw [this]
        apply wrapInt_of_range <;> (simp only [minInt, maxInt] at *; omega)
      have hp := stepLoop_polls paymentID st p hd2
      have := ih (stepLoop paymentID st p) (by rw [hc, hp, h]; simp)
        (by rw [hp]; simp only [Nat.cast_add, Nat.cast_one]; omega)
      refine ⟨this.1, ?_⟩
      have h2 := this.2
      rw [hp] at h2
      simp only [List.length_cons]
      omega

/-- C10: a run of the job sends at most one value on `done` and sets the
counter to its old value plus one (in Go's `int`; exactly plus one below the
largest `int`), whether the poll succeeds or fails, so that in a running loop
started by `main` the counter equals the number of periods; when the status is
terminal and the counter has also reached 20, one value is sent and the output
is the status line followed by the "Final status reached" line, without the
"10 minutes elapsed" line. -/
theorem C10_one_signal_counter_step (paymentID : String) (c : Int)
    (poll : String × Option String) :
    (checkJob paymentID c poll).sent ≤ 1 ∧
    (checkJob paymentID c poll).checkCount = wrapInt (c + 1) ∧
    (minInt ≤ c → c < maxInt → (checkJob paymentID c poll).checkCount = c + 1) ∧
    (∀ polls : List (String × Option String), (polls.length : Int) ≤ maxInt →
      (runLoop paymentID polls).checkCount = (runLoop paymentID polls).polls) ∧
    (poll.2 = none → isTerminal poll.1 → (checkJob paymentID c poll).checkCount ≥ 20 →
      (checkJob paymentID c poll).sent = 1 ∧
      (checkJob paymentID c poll).printed =
        ["Payment ID: " ++ paymentID ++ ", Status: " ++ poll.1 ++ "\n",
         "Final status reached: " ++ poll.1 ++ ". Stopping checks.\n"] ∧
      "10 minutes elapsed. Stopping checks.\n" ∉ (checkJob paymentID c poll).printed) := by
  refine ⟨?_, checkJob_checkCount paymentID c poll, ?_, ?_, ?_⟩
  · obtain ⟨s, _ | e⟩ := poll
    · rw [checkJob_sent_ok]; split_ifs <;> simp
    · simp [checkJob]
  · intro h1 h2
    rw [checkJob_checkCount]
    apply wrapInt_of_range <;> (simp only [minInt, maxInt] at *; omega)
  · intro polls hlen
    have := runFrom_count_eq_polls paymentID polls LoopState.init rfl
      (by simpa [LoopState.init] using hlen)
    exact this.1
  · obtain ⟨s, e⟩ := poll
    intro he ht _
    simp only at he ht
    subst he
    have hcond : s = "succeeded" ∨ s = "canceled" := ht
    simp only [checkJob, hcond, if_true, true_and, List.mem_cons, List.mem_singleton,
      List.not_mem_nil, or_false, not_or]
    constructor
    · intro h
      have := congrArg String.data h
      simp at this
    · intro h
      have := congrArg String.data h
      simp at this

/-- Witness of C10: the status "succeeded" with the counter going from 19 to
20. -/
theorem C10_one_signal_counter_step_witness :
    (checkJob "p1" 19 ("succeeded", none)).checkCount = 19 + 1 ∧
    (checkJob "p1" 19 ("succeeded", none)).sent = 1 ∧
    (checkJob "p1" 19 ("succeeded", none)).printed =
      ["Payment ID: " ++ "p1" ++ ", Status: " ++ "succeeded" ++ "\n",
       "Final status reached: " ++ "succeeded" ++ ". Stopping checks.\n"] ∧
    "10 minutes elapsed. Stopping checks.\n" ∉
      (checkJob "p1" 19 ("succeeded", none)).printed :=
  ⟨(C10_one_signal_counter_step "p1" 19 ("succeeded", none)).2.2.1 (by decide) (by decide),
   (C10_one_signal_counter_step "p1" 19 ("succeeded", none)).2.2.2.2 rfl (by decide)
     (by decide)⟩

/-- C2 (evaluation of the code): with "pending" in periods 1 to 19, a failed
poll in period 20 and "pending" in period 21, the loop is still running after
period 20, although the counter has reached 20, and a 21st poll is made. -/
theorem C2_failed_poll_at_limit_polls_again :
    (pollLoop "p1" (List.replicate 19 pendingCalls ++ [failedCalls])).done = false ∧
    (pollLoop "p1" (List.replicate 19 pendingCalls ++ [failedCalls])).checkCount = 20 ∧
    (pollLoop "p1" (List.replicate 19 pendingCalls ++ [failedCalls, pendingCalls])).done = true ∧
    (pollLoop "p1" (List.replicate 19 pendingCalls ++ [failedCalls, pendingCalls])).polls = 21 := by
  decide



/-! ## Lemmas on text -/

theorem data_append_cancel_left (a x y : String) (h : a ++ x = a ++ y) : x = y := by
  have := congrArg String.data h
  rw [String.data_append, String.data_append] at this
  exact String.ext (List.append_cancel_left this)

theorem failed_not_responseError (rest : String) : ¬ isResponseError ("failed to " ++ rest) := by
  unfold isResponseError
  rw [String.data_append]
  intro h
  have h1 : "unexpected status code: ".data = 'u' :: "nexpected status code: ".data := by decide
  have h2 : "failed to ".data = 'f' :: "ailed to ".data := by decide
  rw [h1, h2, List.cons_append] at h
  obtain ⟨t, ht⟩ := h
  rw [List.cons_append] at ht
  exact absurd (List.cons.inj ht).1 (by decide)

theorem toDigitsCore_acc (fuel : Nat) : ∀ (n : Nat) (acc : List Char),
    Nat.toDigitsCore 10 fuel n acc = Nat.toDigitsCore 10 fuel n [] ++ acc := by
  induction fuel with
  | zero => intro n acc; simp [Nat.toDigitsCore]
  | succ fuel ih =>
    intro n acc
    simp only [Nat.toDigitsCore]
    split_ifs with h
    · simp
    · rw [ih (n / 10) (Nat.digitChar (n % 10) :: acc), ih (n / 10) [Nat.digitChar (n % 10)]]
      simp

theorem digitChar_toNat (d : Nat) (h : d < 10) : (Nat.digitChar d).toNat - 48 = d := by
  interval_cases d <;> decide

theorem digitChar_ne_minus (d : Nat) (h : d < 10) : Nat.digitChar d ≠ '-' := by
  interval_cases d <;> decide

theorem toDigitsCore_value (fuel : Nat) : ∀ n : Nat, n < fuel →
    (Nat.toDigitsCore 10 fuel n []).foldl (fun v c => 10 * v + (c.toNat - 48)) 0 = n := by
  induction fuel with
  | zero => intro n h; omega
  | succ fuel ih =>
    intro n hn
    simp only [Nat.toDigitsCore]
    split_ifs with h
    · simp only [List.foldl_cons, List.foldl_nil, Nat.mul_zero, Nat.zero_add]
      rw [digitChar_toNat _ (Nat.mod_lt _ (by decide))]
      omega
    · rw [toDigitsCore_acc, List.foldl_append, ih (n / 10) (by omega)]
      simp only [List.foldl_cons, List.foldl_nil]
      rw [digitChar_toNat _ (Nat.mod_lt _ (by decide))]
      omega

theorem toDigitsCore_no_minus (fuel : Nat) : ∀ n : Nat,
    '-' ∉ Nat.toDigitsCore 10 fuel n [] := by
  induction fuel with
  | zero => intro n; simp [Nat.toDigitsCore]
  | succ fuel ih =>
    intro n
    simp only [Nat.toDigitsCore]
    have hd := digitChar_ne_minus (n % 10) (Nat.mod_lt _ (by decide))
    split_ifs with h
    · simp only [List.mem_singleton]
      exact fun e => hd e.symm
    · rw [toDigitsCore_acc]
      simp only [List.mem_append, List.mem_singleton, not_or]
      exact ⟨ih _, fun e => hd e.symm⟩

theorem natRepr_injective (a b : Nat) (h : Nat.repr a = Nat.repr b) : a = b := by
  have h1 : Nat.toDigits 10 a = Nat.toDigits 10 b := by
    have := congrArg String.data h
    simpa [Nat.repr, List.asString] using this
  have ha := toDigitsCore_value (a + 1) a (by omega)
  have hb := toDigitsCore_value (b + 1) b (by omega)
  unfold Nat.toDigits at h1
  rw [h1] at ha
  omega

theorem natRepr_no_minus (a : Nat) : '-' ∉ (Nat.repr a).data := by
  simp only [Nat.repr, List.asString, Nat.toDigits]
  exact toDigitsCore_no_minus _ _

theorem intToString_injective (a b : Int) (h : toString a = toString b) : a = b := by
  cases a with
  | ofNat m =>
    cases b with
    | ofNat n =>
      have : Nat.repr m = Nat.repr n := h
      rw [natRepr_injective m n this]
    | negSucc n =>
      exfalso
      have h2 : Nat.repr m = "-" ++ Nat.repr (n + 1) := h
      have := natRepr_no_minus m
      rw [h2, String.data_append] at this
      exact this (by simp)
  | negSucc m =>
    cases b with
    | ofNat n =>
      exfalso
      have h2 : "-" ++ Nat.repr (m + 1) = Nat.repr n := h
      have := natRepr_no_minus n
      rw [← h2, String.data_append] at this
      exact this (by simp)
    | negSucc n =>
      have h2 : "-" ++ Nat.repr (m + 1) = "-" ++ Nat.repr (n + 1) := h
      have := natRepr_injective _ _ (data_append_cancel_left _ _ _ h2)
      have : m = n := by omega
      rw [this]

theorem idempotencyKey_injective (a b : Int) (h : idempotencyKey a = idempotencyKey b) :
    a = b :=
  intToString_injective a b (data_append_cancel_left _ _ _ h)

/-! ## The claims on the HTTP exchange -/

/-- C6: for a response whose status code is not 200, `createPayment` returns
no Payment and `checkPaymentStatus` the empty status, each with an error whose
message is a response error containing the decimal status code and the body
text unchanged; and an error of either function is a response error only when
a response was received whose status code is not 200. -/
theorem C6_non_200_is_response_error :
    (∀ (resp : Response), resp.StatusCode ≠ 200 →
      (∀ (calls : CreateCalls) (body : String), calls.marshal = .ok body →
        calls.newRequest = none → calls.send (createRequest body calls.now) = .ok resp →
        createPayment calls = (none, some ("unexpected status code: " ++
          toString resp.StatusCode ++ ", response: " ++ resp.Body))) ∧
      (∀ (paymentID : String) (calls : StatusCalls), calls.newRequest = none →
        calls.send (statusRequest paymentID) = .ok resp →
        checkPaymentStatus paymentID calls = ("", some ("unexpected status code: " ++
          toString resp.StatusCode ++ ", response: " ++ resp.Body))) ∧
      isResponseError ("unexpected status code: " ++ toString resp.StatusCode ++
        ", response: " ++ resp.Body) ∧
      (toString resp.StatusCode).data <:+: ("unexpected status code: " ++
        toString resp.StatusCode ++ ", response: " ++ resp.Body).data ∧
      resp.Body.data <:+ ("unexpected status code: " ++
        toString resp.StatusCode ++ ", response: " ++ resp.Body).data) ∧
    (∀ (calls : CreateCalls) (msg : String), (createPayment calls).2 = some msg →
      isResponseError msg →
      ∃ req resp, calls.send req = .ok resp ∧ resp.StatusCode ≠ 200) ∧
    (∀ (paymentID : String) (calls : StatusCalls) (msg : String),
      (checkPaymentStatus paymentID calls).2 = some msg →
      isResponseError msg →
      ∃ req resp, calls.send req = .ok resp ∧ resp.StatusCode ≠ 200) := by
  refine ⟨?_, ?_, ?_⟩
  · intro resp hcode
    refine ⟨?_, ?_, ?_, ?_, ?_⟩
    · intro calls body hm hn hs
      simp [createPayment, hm, hn, hs, StatusOK, hcode]
    · intro paymentID calls hn hs
      simp [checkPaymentStatus, hn, hs, StatusOK, hcode]
    · unfold isResponseError
      simp only [String.data_append, List.append_assoc]
      exact ⟨_, rfl⟩
    · simp only [String.data_append, List.append_assoc]
      exact ⟨_, _, List.append_assoc _ _ _⟩
    · simp only [String.data_append]
      exact List.suffix_append _ _
  · intro calls msg h hr
    unfold createPayment at h
    split at h
    · simp only [Option.some.injEq] at h
      subst h
      exact absurd hr (failed_not_responseError _)
    · split at h
      · simp only [Option.some.injEq] at h
        subst h
        exact absurd hr (failed_not_responseError _)
      · split at h
        · simp only [Option.some.injEq] at h
          subst h
          exact absurd hr (failed_not_responseError _)
        · rename_i resp hs
          split_ifs at h with hc
          · exact ⟨_, resp, hs, hc⟩
          · split at h
            · simp only [Option.some.injEq] at h
              subst h
              exact absurd hr (failed_not_responseError _)
            · simp at h
  · intro paymentID calls msg h hr
    unfold checkPaymentStatus at h
    split at h
    · simp only [Option.some.injEq] at h
      subst h
      exact absurd hr (failed_not_responseError _)
    · split at h
      · simp only [Option.some.injEq] at h
        subst h
        exact absurd hr (failed_not_responseError _)
      · rename_i resp hs
        split_ifs at h with hc
        · exact ⟨_, resp, hs, hc⟩
        · split at h
          · simp only [Option.some.injEq] at h
            subst h
            exact absurd hr (failed_not_responseError _)
          · simp at h

/-- Witness of C6: HTTP 500 with the body "internal error". -/
theorem C6_non_200_is_response_error_witness :
    createPayment firstCall =
      (none, some ("unexpected status code: " ++ toString (500 : Int) ++ ", response: " ++
        "internal error")) :=
  (C6_non_200_is_response_error.1
    { StatusCode := 500, Body := "internal error", Value := .error "EOF" } (by decide)).1
    firstCall _ rfl rfl rfl

/-- C7 (counterexample): two separate calls of `createPayment` that read the
same clock value send the same `Idempotence-Key`. -/
theorem C7_same_clock_reading_same_key :
    sentIdempotenceKey firstCall = some "test-idempotency-1730000000000000000" ∧
    sentIdempotenceKey secondCall = some "test-idempotency-1730000000000000000" ∧
    firstCall.now = secondCall.now := by
  decide

/-- C7 (amended): the key sent by a call of `createPayment` is
"test-idempotency-" followed by the decimal clock reading of the call, and the
keys sent by two calls differ exactly when their clock readings differ. -/
theorem C7_keys_differ_iff_clock_differs (a b : CreateCalls)
    (ha : createPaymentSent a ≠ none) (hb : createPaymentSent b ≠ none) :
    sentIdempotenceKey a = some ("test-idempotency-" ++ toString a.now) ∧
    sentIdempotenceKey b = some ("test-idempotency-" ++ toString b.now) ∧
    (sentIdempotenceKey a ≠ sentIdempotenceKey b ↔ a.now ≠ b.now) := by
  have key : ∀ c : CreateCalls, createPaymentSent c ≠ none →
      sentIdempotenceKey c = some (idempotencyKey c.now) := by
    intro c hc
    unfold sentIdempotenceKey
    unfold createPaymentSent at hc ⊢
    split at hc
    · exact absurd rfl hc
    · split at hc
      · exact absurd rfl hc
      · rename_i body hm _ hn
        simp [hm, hn, createRequest, headerGet, List.lookup]
  refine ⟨key a ha, key b hb, ?_⟩
  rw [key a ha, key b hb]
  constructor
  · intro h e
    exact h (by rw [e])
  · intro h e
    exact h (idempotencyKey_injective _ _ (Option.some.inj e))

/-- Witness of C7 (amended): two calls one nanosecond apart. -/
theorem C7_keys_differ_iff_clock_differs_witness :
    sentIdempotenceKey firstCall ≠
      sentIdempotenceKey { firstCall with now := 1730000000000000001 } :=
  (C7_keys_differ_iff_clock_differs firstCall { firstCall with now := 1730000000000000001 }
    (by decide) (by decide)).2.2.mpr (by decide)



/-! ## Lemmas on decoding -/

theorem saveError_isSome (saved : Option String) (err : String) :
    (saveError saved err).isSome = true := by
  cases saved <;> rfl

theorem storeString_error (sn fld : String) (j : Json) (acc : String × Option String) :
    (storeString sn fld j acc).2.isSome = (acc.2.isSome || stringConflict j) := by
  cases j <;> simp [storeString, stringConflict, saveError_isSome]

theorem storeBool_error (sn fld : String) (j : Json) (acc : Bool × Option String) :
    (storeBool sn fld j acc).2.isSome = (acc.2.isSome || boolConflict j) := by
  cases j <;> simp [storeBool, boolConflict, saveError_isSome]

/-- The error left by decoding the members of an object: the one already
saved, or one caused by a member in conflict with its field. -/
theorem decodeMembers_error {φ σ : Type} (fields : List φ) (name : φ → String)
    (store : φ → Json → σ × Option String → σ × Option String) (conflict : φ → Json → Bool)
    (hstore : ∀ f v acc, (store f v acc).2.isSome = (acc.2.isSome || conflict f v))
    (members : List (String × Json)) :
    ∀ acc, (decodeMembers fields name store members acc).2.isSome =
      (acc.2.isSome || membersConflict fields name conflict members) := by
  induction members with
  | nil => intro acc; simp [decodeMembers, membersConflict]
  | cons m ms ih =>
    intro acc
    have ih2 := ih
    unfold decodeMembers membersConflict at ih2 ⊢
    simp only [List.foldl_cons, List.any_cons]
    rw [ih2]
    cases h : lookupField fields name m.1 with
    | none => simp
    | some f => simp [hstore, Bool.or_assoc]

theorem storeAmount_error (j : Json) (acc : Amount × Option String) :
    (storeAmount j acc).2.isSome = (acc.2.isSome || amountConflict j) := by
  cases j with
  | object ms =>
    simp only [storeAmount, amountConflict]
    apply decodeMembers_error
    intro f v acc
    cases f <;> simp [AmountField.store, storeString_error]
  | _ => simp [storeAmount, amountConflict, saveError_isSome]

theorem storeConfirmation_error (j : Json) (acc : Confirmation × Option String) :
    (storeConfirmation j acc).2.isSome = (acc.2.isSome || confirmationConflict j) := by
  cases j with
  | object ms =>
    simp only [storeConfirmation, confirmationConflict]
    apply decodeMembers_error
    intro f v acc
    cases f <;> simp [ConfirmationField.store, storeString_error]
  | _ => simp [storeConfirmation, confirmationConflict, saveError_isSome]

theorem paymentStore_error (f : PaymentField) (v : Json) (acc : Payment × Option String) :
    (PaymentField.store f v acc).2.isSome = (acc.2.isSome || PaymentField.conflict f v) := by
  cases f <;>
    simp [PaymentField.store, PaymentField.conflict, storeString_error, storeBool_error,
      storeAmount_error, storeConfirmation_error]

/-- Decoding a JSON value into a payment fails exactly when the value
conflicts with the shape of `Payment`. -/
theorem unmarshalPayment_error (j : Json) (payment : Payment) :
    (unmarshalPayment j payment).2.isSome = conflictsWithPayment j := by
  cases j with
  | object ms =>
    simp only [unmarshalPayment, conflictsWithPayment]
    rw [decodeMembers_error _ _ _ PaymentField.conflict paymentStore_error]
    simp
  | _ => simp [unmarshalPayment, conflictsWithPayment]

/-- What `createPayment` returns for a response with status code 200. -/
theorem createPayment_ok_response (calls : CreateCalls) (resp : Response)
    (body : String) (hm : calls.marshal = .ok body) (hn : calls.newRequest = none)
    (hs : calls.send (createRequest body calls.now) = .ok resp) (hc : resp.StatusCode = 200) :
    createPayment calls =
      match decodeBody resp with
      | (_, some err) => (none, some ("failed to decode response: " ++ err))
      | (payment, none) => (some payment, none) := by
  simp [createPayment, hm, hn, hs, hc, StatusOK]

theorem decodeError_of_message (err : String) :
    isDecodeError ("failed to decode response: " ++ err) := by
  unfold isDecodeError
  rw [String.data_append]
  exact ⟨_, rfl⟩

/-- C9 (counterexample): HTTP 200 with the body `{}`, or with a JSON object of
another shape, gives a zero Payment and no error. -/
theorem C9_other_shape_decodes_without_error :
    createPayment emptyObjectCall = (some Payment.zero, none) ∧
    createPayment otherShapeCall = (some Payment.zero, none) := by
  decide

/-- Decoding the members of an object keeps whatever holds of the struct and
is kept by the store of every field but one, when no member selects that
field. -/
theorem decodeMembers_unselected {φ σ : Type} (fields : List φ) (name : φ → String)
    (store : φ → Json → σ × Option String → σ × Option String) (f0 : φ) (P : σ → Prop)
    (hstore : ∀ g v acc, g ≠ f0 → P acc.1 → P (store g v acc).1)
    (members : List (String × Json)) :
    (∀ m ∈ members, lookupField fields name m.1 ≠ some f0) →
    ∀ acc, P acc.1 → P (decodeMembers fields name store members acc).1 := by
  induction members with
  | nil => intro _ acc h; exact h
  | cons m ms ih =>
    intro hsel acc h
    have hcons : decodeMembers fields name store (m :: ms) acc =
        decodeMembers fields name store ms
          (match lookupField fields name m.1 with
            | some f => store f m.2 acc
            | none => acc) := rfl
    rw [hcons]
    apply ih (fun m2 hm2 => hsel m2 (List.mem_cons_of_mem _ hm2))
    cases hl : lookupField fields name m.1 with
    | none => exact h
    | some g =>
      have hne : g ≠ f0 := by
        intro e
        apply hsel m (List.mem_cons_self _ _)
        rw [hl, e]
      exact hstore g m.2 acc hne h

/-- The store of a field of `Payment` leaves every other field as it is. -/
theorem paymentStore_other (g f0 : PaymentField) (v : Json) (acc : Payment × Option String)
    (q : Payment) (hne : g ≠ f0) (h : PaymentField.sameIn f0 acc.1 q) :
    PaymentField.sameIn f0 (PaymentField.store g v acc).1 q := by
  cases g <;> cases f0 <;> first | exact absurd rfl hne | exact h

/-- Decoding an object into a payment leaves a field that no member selects
as it was. -/
theorem unmarshalPayment_unselected (members : List (String × Json)) (a : Payment)
    (f : PaymentField)
    (hsel : ∀ m ∈ members, lookupField PaymentField.all PaymentField.tag m.1 ≠ some f) :
    PaymentField.sameIn f (unmarshalPayment (.object members) a).1 a := by
  simp only [unmarshalPayment]
  apply decodeMembers_unselected PaymentField.all PaymentField.tag PaymentField.store f
    (fun s => PaymentField.sameIn f s a)
    (fun g v acc hne h => paymentStore_other g f v acc a hne h) members hsel
  cases f <;> rfl

/-- C9 (amended): for a response with status code 200, `createPayment` returns
a decode error and no Payment when the decoder cannot read a JSON value from
the body (the error carries the reader's message), and when the value read
conflicts with the shape of `Payment`; for any other value it returns no error
and a Payment: the zero Payment for `null`, and for an object a Payment in
which every field of `Payment` that no member selects has its zero value. -/
theorem C9_decode_error_iff_unreadable_or_conflict (calls : CreateCalls) (resp : Response)
    (body : String) (hm : calls.marshal = .ok body) (hn : calls.newRequest = none)
    (hs : calls.send (createRequest body calls.now) = .ok resp) (hc : resp.StatusCode = 200) :
    (∀ err, resp.Value = .error err →
      createPayment calls = (none, some ("failed to decode response: " ++ err))) ∧
    (∀ j, resp.Value = .ok j → conflictsWithPayment j = true →
      ∃ msg, createPayment calls = (none, some msg) ∧ isDecodeError msg) ∧
    (∀ j, resp.Value = .ok j → conflictsWithPayment j = false →
      ∃ payment, createPayment calls = (some payment, none) ∧
        (j = .null → payment = Payment.zero) ∧
        (∀ members, j = .object members → ∀ f : PaymentField,
          (∀ m ∈ members, lookupField PaymentField.all PaymentField.tag m.1 ≠ some f) →
          PaymentField.sameIn f payment Payment.zero)) := by
  rw [createPayment_ok_response calls resp body hm hn hs hc]
  refine ⟨?_, ?_, ?_⟩
  · intro err hv
    simp [decodeBody, hv]
  · intro j hv hconf
    have h := unmarshalPayment_error j Payment.zero
    rw [hconf] at h
    simp only [decodeBody, hv]
    rcases hu : unmarshalPayment j Payment.zero with ⟨p, e⟩
    rw [hu] at h
    cases e with
    | none => simp at h
    | some err => exact ⟨_, rfl, decodeError_of_message err⟩
  · intro j hv hconf
    have h := unmarshalPayment_error j Payment.zero
    rw [hconf] at h
    simp only [decodeBody, hv]
    rcases hu : unmarshalPayment j Payment.zero with ⟨p, e⟩
    rw [hu] at h
    cases e with
    | none =>
      refine ⟨p, rfl, ?_, ?_⟩
      · intro hj
        subst hj
        have : (unmarshalPayment Json.null Payment.zero).1 = Payment.zero := rfl
        rw [hu] at this
        exact this
      · intro members hj f hsel
        subst hj
        have := unmarshalPayment_unselected members Payment.zero f hsel
        rw [hu] at this
        exact this
    | some err => simp at h

/-- Witness of C9 (amended): a body that breaks off inside a JSON object gives
a decode error, and the body `null` gives the zero Payment. -/
theorem C9_decode_error_iff_unreadable_or_conflict_witness :
    createPayment malformedCall =
      (none, some ("failed to decode response: " ++ "unexpected EOF")) ∧
    createPayment nullCall = (some Payment.zero, none) := by
  refine ⟨(C9_decode_error_iff_unreadable_or_conflict malformedCall
    { StatusCode := 200
      Body := "\x7b\"id\":"
      Value := .error "unexpected EOF" }
    _ rfl rfl rfl rfl).1 _ rfl, ?_⟩
  obtain ⟨payment, h1, h2, _⟩ := (C9_decode_error_iff_unreadable_or_conflict nullCall
    { StatusCode := 200, Body := "null", Value := .ok .null }
    _ rfl rfl rfl rfl).2.2 .null rfl rfl
  rw [h1, h2 rfl]

/-- An object that gives only some fields of `Payment`, one of them as `null`,
is decoded without error: the fields given a value hold it, the others are
zero. -/
theorem createPayment_partial_object :
    createPayment idOnlyCall = (some { Payment.zero with ID := "x" }, none) := by
  decide

/-! ## Decoding of a valid payment object -/

/-- A key selects a field only if it equals the name of the field under case
folding. -/
theorem lookupField_fold {φ : Type} (fields : List φ) (name : φ → String) (key : String)
    (f : φ) (h : lookupField fields name key = some f) :
    foldName (name f) = foldName key := by
  unfold lookupField at h
  split at h
  · rename_i g hg
    have := List.find?_some hg
    simp only [decide_eq_true_eq] at this
    simp only [Option.some.injEq] at h
    subst h
    rw [this]
  · have := List.find?_some h
    simpa using this

/-- In an object with distinct names, the member that a field selects is the
member with the name of the field. -/
theorem member_unique (members : List (String × Json)) (hd : distinctNames members)
    (k : String) (v : Json) (hk : (k, v) ∈ members) (m : String × Json) (hm : m ∈ members)
    (hf : foldName k = foldName m.1) : m = (k, v) := by
  have := List.inj_on_of_nodup_map hd hk hm
  exact (this hf).symm

/-- Decoding the members of an object in which every member that selects a
field stores without error a value with which the field then agrees, and leaves
agreeing fields as they are: no error is left and every selected field
agrees. -/
theorem decodeMembers_agree {φ σ : Type} (fields : List φ) (name : φ → String)
    (store : φ → Json → σ × Option String → σ × Option String) (agree : φ → σ → Prop)
    (members : List (String × Json)) :
    (∀ m ∈ members, ∀ f, lookupField fields name m.1 = some f → ∀ a : σ,
      (store f m.2 (a, none)).2 = none ∧ agree f (store f m.2 (a, none)).1 ∧
      ∀ g, agree g a → agree g (store f m.2 (a, none)).1) →
    ∀ a : σ,
      (decodeMembers fields name store members (a, none)).2 = none ∧
      (∀ g, agree g a → agree g (decodeMembers fields name store members (a, none)).1) ∧
      (∀ m ∈ members, ∀ f, lookupField fields name m.1 = some f →
        agree f (decodeMembers fields name store members (a, none)).1) := by
  induction members with
  | nil =>
    intro _ a
    simp [decodeMembers]
  | cons m ms ih =>
    intro h a
    have ih2 := ih (fun m2 hm2 => h m2 (List.mem_cons_of_mem _ hm2))
    have hcons : ∀ acc, decodeMembers fields name store (m :: ms) acc =
        decodeMembers fields name store ms
          (match lookupField fields name m.1 with
            | some f => store f m.2 acc
            | none => acc) := fun acc => rfl
    rw [hcons]
    cases hl : lookupField fields name m.1 with
    | none =>
      simp only
      obtain ⟨r1, r2, r3⟩ := ih2 a
      refine ⟨r1, r2, ?_⟩
      intro m2 hm2 f hf
      rcases List.mem_cons.mp hm2 with e | e
      · subst e
        rw [hl] at hf
        exact absurd hf (by simp)
      · exact r3 m2 e f hf
    | some f0 =>
      simp only
      obtain ⟨s1, s2, s3⟩ := h m (List.mem_cons_self _ _) f0 hl a
      have e : store f0 m.2 (a, none) = ((store f0 m.2 (a, none)).1, none) :=
        Prod.ext rfl s1
      rw [e]
      obtain ⟨r1, r2, r3⟩ := ih2 (store f0 m.2 (a, none)).1
      refine ⟨r1, fun g hg => r2 g (s3 g hg), ?_⟩
      intro m2 hm2 f hf
      rcases List.mem_cons.mp hm2 with e2 | e2
      · subst e2
        rw [hl] at hf
        simp only [Option.some.injEq] at hf
        subst hf
        exact r2 _ s2
      · exact r3 m2 e2 f hf

/-- Decoding a valid `amount` object gives its two fields, whatever the struct
held before. -/
theorem storeAmount_valid (am : List (String × Json)) (x y : String)
    (hd : distinctNames am) (hx : ("value", Json.string x) ∈ am)
    (hy : ("currency", Json.string y) ∈ am) (a : Amount) :
    storeAmount (.object am) (a, none) = (⟨x, y⟩, none) := by
  have h := decodeMembers_agree AmountField.all AmountField.tag AmountField.store
    (fun f (s : Amount) =>
      match f with
      | .value => s.Value = x
      | .currency => s.Currency = y) am
    (by
      intro m hm f hf a
      have hfold := lookupField_fold _ _ _ _ hf
      cases f with
      | value =>
        have := member_unique am hd "value" _ hx m hm hfold
        subst this
        refine ⟨rfl, rfl, ?_⟩
        intro g hg
        cases g
        · rfl
        · exact hg
      | currency =>
        have := member_unique am hd "currency" _ hy m hm hfold
        subst this
        refine ⟨rfl, rfl, ?_⟩
        intro g hg
        cases g
        · exact hg
        · rfl) a
  obtain ⟨h1, _, h3⟩ := h
  have hv := h3 _ hx .value
    (show lookupField AmountField.all AmountField.tag "value" = some .value by decide)
  have hc := h3 _ hy .currency
    (show lookupField AmountField.all AmountField.tag "currency" = some .currency by decide)
  simp only at hv hc
  simp only [storeAmount]
  apply Prod.ext
  · rcases hr : (decodeMembers AmountField.all AmountField.tag AmountField.store am (a, none)).1
      with ⟨v, c⟩
    rw [hr] at hv hc
    simp only at hv hc
    rw [hv, hc]
  · exact h1

/-- Decoding a valid `confirmation` object gives its three fields, whatever
the struct held before. -/
theorem storeConfirmation_valid (cm : List (String × Json)) (x y z : String)
    (hd : distinctNames cm) (hx : ("type", Json.string x) ∈ cm)
    (hy : ("return_url", Json.string y) ∈ cm)
    (hz : ("confirmation_url", Json.string z) ∈ cm) (a : Confirmation) :
    storeConfirmation (.object cm) (a, none) = (⟨x, y, z⟩, none) := by
  have h := decodeMembers_agree ConfirmationField.all ConfirmationField.tag
    ConfirmationField.store
    (fun f (s : Confirmation) =>
      match f with
      | .type => s.Type_ = x
      | .returnURL => s.ReturnURL = y
      | .confirmationURL => s.ConfirmationURL = z) cm
    (by
      intro m hm f hf a
      have hfold := lookupField_fold _ _ _ _ hf
      cases f with
      | type =>
        have := member_unique cm hd "type" _ hx m hm hfold
        subst this
        refine ⟨rfl, rfl, ?_⟩
        intro g hg
        cases g
        · rfl
        · exact hg
        · exact hg
      | returnURL =>
        have := member_unique cm hd "return_url" _ hy m hm hfold
        subst this
        refine ⟨rfl, rfl, ?_⟩
        intro g hg
        cases g
        · exact hg
        · rfl
        · exact hg
      | confirmationURL =>
        have := member_unique cm hd "confirmation_url" _ hz m hm hfold
        subst this
        refine ⟨rfl, rfl, ?_⟩
        intro g hg
        cases g
        · exact hg
        · exact hg
        · rfl) a
  obtain ⟨h1, _, h3⟩ := h
  have hv := h3 _ hx .type
    (show lookupField ConfirmationField.all ConfirmationField.tag "type" = some .type by decide)
  have hr := h3 _ hy .returnURL
    (show lookupField ConfirmationField.all ConfirmationField.tag "return_url" =
      some .returnURL by decide)
  have hc := h3 _ hz .confirmationURL
    (show lookupField ConfirmationField.all ConfirmationField.tag "confirmation_url" =
      some .confirmationURL by decide)
  simp only at hv hr hc
  simp only [storeConfirmation]
  apply Prod.ext
  · rcases hq : (decodeMembers ConfirmationField.all ConfirmationField.tag
      ConfirmationField.store cm (a, none)).1 with ⟨v, r, c⟩
    rw [hq] at hv hr hc
    simp only at hv hr hc
    rw [hv, hr, hc]
  · exact h1

/-- Decoding a valid payment object into any payment gives the payment whose
fields are the values of the object, and no error. -/
theorem unmarshalPayment_valid (members : List (String × Json)) (p : Payment)
    (hv : isPaymentObject members p) (a : Payment) :
    unmarshalPayment (.object members) a = (p, none) := by
  obtain ⟨hd, hid, hst, ⟨am, ham, hamd, hamv, hamc⟩, ⟨cm, hcm, hcmd, hct, hcr, hcc⟩,
    hde, hca, hte⟩ := hv
  have h := decodeMembers_agree PaymentField.all PaymentField.tag PaymentField.store
    (fun f (s : Payment) =>
      match f with
      | .id => s.ID = p.ID
      | .status => s.Status = p.Status
      | .amount => s.Amount = p.Amount
      | .confirmation => s.Confirmation = p.Confirmation
      | .description => s.Description = p.Description
      | .capture => s.Capture = p.Capture
      | .test => s.Test = p.Test) members
    (by
      intro m hm f hf a
      have hfold := lookupField_fold _ _ _ _ hf
      cases f with
      | id =>
        have := member_unique members hd "id" _ hid m hm hfold
        subst this
        refine ⟨rfl, rfl, ?_⟩
        intro g hg
        cases g <;> first | rfl | exact hg
      | status =>
        have := member_unique members hd "status" _ hst m hm hfold
        subst this
        refine ⟨rfl, rfl, ?_⟩
        intro g hg
        cases g <;> first | rfl | exact hg
      | amount =>
        have := member_unique members hd "amount" _ ham m hm hfold
        subst this
        have e := storeAmount_valid am _ _ hamd hamv hamc a.Amount
        have hs : PaymentField.store .amount (("amount", Json.object am) : String × Json).2
            (a, none) = ({ a with Amount := p.Amount }, none) := by
          simp only [PaymentField.store, e]
        rw [hs]
        refine ⟨rfl, rfl, ?_⟩
        intro g hg
        cases g <;> first | rfl | exact hg
      | confirmation =>
        have := member_unique members hd "confirmation" _ hcm m hm hfold
        subst this
        have e := storeConfirmation_valid cm _ _ _ hcmd hct hcr hcc a.Confirmation
        have hs : PaymentField.store .confirmation
            (("confirmation", Json.object cm) : String × Json).2
            (a, none) = ({ a with Confirmation := p.Confirmation }, none) := by
          simp only [PaymentField.store, e]
        rw [hs]
        refine ⟨rfl, rfl, ?_⟩
        intro g hg
        cases g <;> first | rfl | exact hg
      | description =>
        have := member_unique members hd "description" _ hde m hm hfold
        subst this
        refine ⟨rfl, rfl, ?_⟩
        intro g hg
        cases g <;> first | rfl | exact hg
      | capture =>
        have := member_unique members hd "capture" _ hca m hm hfold
        subst this
        refine ⟨rfl, rfl, ?_⟩
        intro g hg
        cases g <;> first | rfl | exact hg
      | test =>
        have := member_unique members hd "test" _ hte m hm hfold
        subst this
        refine ⟨rfl, rfl, ?_⟩
        intro g hg
        cases g <;> first | rfl | exact hg) a
  obtain ⟨h1, _, h3⟩ := h
  have e1 := h3 _ hid .id
    (show lookupField PaymentField.all PaymentField.tag "id" = some .id by decide)
  have e2 := h3 _ hst .status
    (show lookupField PaymentField.all PaymentField.tag "status" = some .status by decide)
  have e3 := h3 _ ham .amount
    (show lookupField PaymentField.all PaymentField.tag "amount" = some .amount by decide)
  have e4 := h3 _ hcm .confirmation
    (show lookupField PaymentField.all PaymentField.tag "confirmation" =
      some .confirmation by decide)
  have e5 := h3 _ hde .description
    (show lookupField PaymentField.all PaymentField.tag "description" =
      some .description by decide)
  have e6 := h3 _ hca .capture
    (show lookupField PaymentField.all PaymentField.tag "capture" = some .capture by decide)
  have e7 := h3 _ hte .test
    (show lookupField PaymentField.all PaymentField.tag "test" = some .test by decide)
  simp only at e1 e2 e3 e4 e5 e6 e7
  simp only [unmarshalPayment]
  apply Prod.ext
  · rcases hq : (decodeMembers PaymentField.all PaymentField.tag PaymentField.store members
      (a, none)).1 with ⟨q1, q2, q3, q4, q5, q6, q7⟩
    rw [hq] at e1 e2 e3 e4 e5 e6 e7
    simp only at e1 e2 e3 e4 e5 e6 e7
    rw [e1, e2, e3, e4, e5, e6, e7]
  · exact h1

/-- C8: for a response with status code 200 whose body is a valid payment
object, `createPayment` returns no error and the Payment whose id, status,
amount value and currency, confirmation type, return_url and confirmation_url,
description, capture and test are the values of those fields in the body. -/
theorem C8_valid_body_fields_equal (calls : CreateCalls) (resp : Response)
    (members : List (String × Json)) (p : Payment)
    (body : String) (hm : calls.marshal = .ok body) (hn : calls.newRequest = none)
    (hs : calls.send (createRequest body calls.now) = .ok resp) (hc : resp.StatusCode = 200)
    (hv : resp.Value = .ok (.object members)) (hp : isPaymentObject members p) :
    createPayment calls = (some p, none) := by
  rw [createPayment_ok_response calls resp body hm hn hs hc]
  simp only [decodeBody, hv, unmarshalPayment_valid members p hp]

/-- Witness of C8: the payment object `sampleMembers`. -/
theorem C8_valid_body_fields_equal_witness :
    createPayment sampleCall = (some samplePayment, none) :=
  C8_valid_body_fields_equal sampleCall sampleResponse sampleMembers samplePayment
    _ rfl rfl rfl rfl rfl
    ⟨by decide, by simp [sampleMembers, samplePayment],
      by simp [sampleMembers, samplePayment],
      ⟨[("value", .string "10.00"), ("currency", .string "RUB")],
        by simp [sampleMembers], by decide, by simp [samplePayment],
        by simp [samplePayment]⟩,
      ⟨[("type", .string "redirect"),
        ("return_url", .string "https://your-website.com/return"),
        ("confirmation_url",
          .string "https://yoomoney.ru/checkout/payments/v2/contract?orderId=2f1c-0001")],
        by simp [sampleMembers], by decide, by simp [samplePayment],
        by simp [samplePayment], by simp [samplePayment]⟩,
      by simp [sampleMembers, samplePayment], by simp [sampleMembers, samplePayment],
      by simp [sampleMembers, samplePayment]⟩


end YooKassa
